import Mathlib

/-!
Shallow embedding of the core subsystems of the Arcade-Game-Engine repository
(entity/component runtime for a 2D arcade game), developed to settle the
specification claims about the animation engine, the event bus, the timer
scheduler, the legacy animation-path loader, the ballistic spline helper and
the audio synthesizer envelope.

Real-number quantities (C++ `double`/`float`) are embedded as rationals `ℚ`,
so every definition is executable and the numeric formulas are exact.
Fallible operations (out-of-bounds vector accesses, `back()` on an empty
vector, unopenable files) are embedded with `Option`.
-/

namespace Arcade

/-- Three-component vector, embedding the `vec3` value type used by the
animation component (`animation.cpp`). Components are embedded as `ℚ`. -/
structure Vec3 where
  x : ℚ
  y : ℚ
  z : ℚ
deriving DecidableEq, Repr

instance : Add Vec3 := ⟨fun a b => ⟨a.x + b.x, a.y + b.y, a.z + b.z⟩⟩

/-- Componentwise scaling `v * c` of a `vec3` by a scalar, as used in
`AnimationComponent::update` (`s0.first*cp0` and friends). -/
instance : HMul Vec3 ℚ Vec3 := ⟨fun v c => ⟨v.x * c, v.y * c, v.z * c⟩⟩

/-- Componentwise division `v / c` of a `vec3` by a scalar, as used for the
final velocity `lastHalfSpline.second/(float)_duration`. -/
instance : HDiv Vec3 ℚ Vec3 := ⟨fun v c => ⟨v.x / c, v.y / c, v.z / c⟩⟩

/-- Two-component vector, embedding the `Vector2` value type of the engine
(`types.hpp`), used by `calculate_spline` in `Character.cpp`. -/
structure Vec2 where
  x : ℚ
  y : ℚ
deriving DecidableEq, Repr

instance : Add Vec2 := ⟨fun a b => ⟨a.x + b.x, a.y + b.y⟩⟩
instance : Sub Vec2 := ⟨fun a b => ⟨a.x - b.x, a.y - b.y⟩⟩

/-- Componentwise scaling of a `Vector2` by a scalar (e.g. `gravity/2*t2`). -/
instance : HMul Vec2 ℚ Vec2 := ⟨fun v c => ⟨v.x * c, v.y * c⟩⟩

/-- Componentwise division of a `Vector2` by a scalar. -/
instance : HDiv Vec2 ℚ Vec2 := ⟨fun v c => ⟨v.x / c, v.y / c⟩⟩

/-- Embedding of C `fmod` for the arguments produced by
`AnimationComponent::update` (numerator `elapsed ≥ 0`, denominator `dt > 0`):
`fmod(a, b) = a - b * trunc(a / b)`, and truncation agrees with `floor` on
nonnegative quotients. For `b = 0` the rational convention `a / 0 = 0` gives
`fmodQ a 0 = a`, which matches `fmod(a, inf) = a` produced by the C++ code
when the segment count is 1 (`duration / 0.0 = inf` in IEEE arithmetic). -/
def fmodQ (a b : ℚ) : ℚ := a - b * (⌊a / b⌋ : ℚ)

/-- Events emitted by the engine components that the claims mention. -/
inductive EngineEvent where
  | didStartAnimating
  | didStopAnimating
deriving DecidableEq, Repr

/-! ## Cubic-Hermite basis weights

Translated from `AnimationComponent::update` (`animation.cpp`, lines 62-69):
`cp0 = 2t³ - 3t² + 1`, `cm0 = t³ - 2t² + t`, `cm1 = t³ - t²`,
`cp1 = 3t² - 2t³`. -/

/-- Basis weight `cp0 = two_t3 - three_t2 + 1` from the source. -/
def cp0 (t : ℚ) : ℚ := 2 * t ^ 3 - 3 * t ^ 2 + 1

/-- Basis weight `cm0 = t3 - 2*t2 + t` from the source. -/
def cm0 (t : ℚ) : ℚ := t ^ 3 - 2 * t ^ 2 + t

/-- Basis weight `cm1 = t3 - t2` from the source. -/
def cm1 (t : ℚ) : ℚ := t ^ 3 - t ^ 2

/-- Basis weight `cp1 = three_t2 - two_t3` from the source. -/
def cp1 (t : ℚ) : ℚ := 3 * t ^ 2 - 2 * t ^ 3

/-- The blended point `p = s0.first*cp0 + s0.second*cm0 + s1.first*cp1 +
s1.second*cm1` computed by `AnimationComponent::update` (lines 70-73) from
two consecutive (position, tangent) control points `s0`, `s1`. -/
def hermiteBlend (s0 s1 : Vec3 × Vec3) (t : ℚ) : Vec3 :=
  s0.1 * cp0 t + s0.2 * cm0 t + s1.1 * cp1 t + s1.2 * cm1 t

/-! ## AnimationComponent (animation.cpp) -/

/-- Mutable state of an `AnimationComponent` (`animation.cpp` / the
`AnimationComponent` declaration in `core.hpp`): the stored named curves
(`_curves`, a map from id to a list of (position, tangent) control points,
embedded as an association list), the running-animation fields and the
`animating` flag. -/
structure AnimationState where
  animating : Bool
  curves : List (String × List (Vec3 × Vec3))
  currentCurve : List (Vec3 × Vec3)
  startPosition : Vec3
  startTime : ℚ
  duration : ℚ
  updateVelocity : Bool
deriving DecidableEq, Repr

/-- The entity fields touched by the animation component: its local position
(read as the animation origin, written by `setPosition`) and its velocity
(written by the finish branch of `update`). -/
structure EntityState where
  position : Vec3
  velocity : Vec3
deriving DecidableEq, Repr

namespace AnimationComponent

/-- Lookup in the `_curves` map (`_curves.find(id)`), embedded on the
association list. -/
def findCurve (curves : List (String × List (Vec3 × Vec3))) (id : String) :
    Option (List (Vec3 × Vec3)) :=
  match curves with
  | [] => none
  | (k, v) :: rest => if k = id then some v else findCurve rest id

/-- Appends a control point at the tail of the list stored under `id`,
creating the entry when the id is not yet present (the behavior of
`operator[]` on a `std::map` followed by `push_back`). -/
def appendSegment (curves : List (String × List (Vec3 × Vec3))) (id : String)
    (cp : Vec3 × Vec3) : List (String × List (Vec3 × Vec3)) :=
  match curves with
  | [] => [(id, [cp])]
  | (k, v) :: rest =>
      if k = id then (k, v ++ [cp]) :: rest
      else (k, v) :: appendSegment rest id cp

/-- `AnimationComponent::addSegment`: `_curves[id].push_back({position,
velocity})`. -/
def addSegment (s : AnimationState) (id : String) (position velocity : Vec3) :
    AnimationState :=
  { s with curves := appendSegment s.curves id (position, velocity) }

/-- `AnimationComponent::performAnimation(id, duration, updateVelocity)`
(`animation.cpp`, lines 36-50). When the component is not animating and the
id is stored, it marks the component animating, copies the curve into
`_currentCurve`, reads the entity's current local position into
`_startPosition` (the out-parameter getter `entity()->localPosition(...)`,
following the engine's out-parameter convention, e.g.
`calculateWorldPosition(Vector2 & result)` in `core.hpp`), stamps
`_startTime` from the effective clock, stores the duration and the
`updateVelocity` flag and notifies `DidStartAnimating`; otherwise it does
nothing. Returns the new state paired with the list of emitted events. -/
def performAnimation (s : AnimationState) (entityPos : Vec3) (now : ℚ)
    (id : String) (duration : ℚ) (updateVelocity : Bool) :
    AnimationState × List EngineEvent :=
  if !s.animating then
    match findCurve s.curves id with
    | some c =>
        ({ s with
            animating := true
            currentCurve := c
            startPosition := entityPos
            startTime := now
            duration := duration
            updateVelocity := updateVelocity },
         [EngineEvent.didStartAnimating])
    | none => (s, [])
  else (s, [])

/-- `AnimationComponent::update(Core & world)` (`animation.cpp`, lines
52-93). `now` is `world.effectiveElapsedTime()`. While animating and
`elapsed < duration` the entity position is set to `_startPosition + p`
where `p` is the Hermite blend of control points `i` and `i+1`; once
`elapsed ≥ duration` the position snaps to the final control point's offset,
the velocity is overwritten with (final tangent / duration) when the
`_updateVelocity` flag is set, the animating flag is cleared and
`DidStopAnimating` is notified. The vector accesses `_currentCurve[i]`,
`_currentCurve[i+1]` and `_currentCurve.back()` are embedded with `Option`
(`none` exactly when the C++ access is out of bounds, hence undefined). The
C++ `(int)floor(elapsed / dt)` is embedded as `Int.toNat ∘ Int.floor`, which
agrees with it whenever `elapsed ≥ 0` and `dt > 0` (and also when the
segment count is 1: there C++ computes `dt = inf` and `i = 0`, `t = 0`,
while the rational convention `x / 0 = 0` gives the same `i = 0`, `t = 0`). -/
def update (s : AnimationState) (e : EntityState) (now : ℚ) :
    Option (AnimationState × EntityState × List EngineEvent) :=
  if s.animating then
    let dt := s.duration / ((s.currentCurve.length : ℚ) - 1)
    let elapsed := now - s.startTime
    if elapsed < s.duration then
      let i := (⌊elapsed / dt⌋).toNat
      let t := fmodQ elapsed dt / dt
      match s.currentCurve[i]?, s.currentCurve[i + 1]? with
      | some s0, some s1 =>
          some (s, { e with position := s.startPosition + hermiteBlend s0 s1 t }, [])
      | _, _ => none
    else
      match s.currentCurve.getLast? with
      | some lastHalfSpline =>
          some ({ s with animating := false },
                { position := s.startPosition + lastHalfSpline.1,
                  velocity :=
                    if s.updateVelocity then lastHalfSpline.2 / s.duration
                    else e.velocity },
                [EngineEvent.didStopAnimating])
      | none => none
  else some (s, e, [])

end AnimationComponent

/-! ## Legacy AnimationComponent loader (core.cpp) -/

namespace LegacyAnimation

/-- A stored legacy animation path: the parsed movement vectors and the total
duration (`_animation_paths[animation_id] = {movements, duration}` in
`core.cpp`). -/
structure AnimationPath where
  movements : List Vec2
  duration : ℚ
deriving DecidableEq, Repr

/-- The pairs extracted by the loop `while (file >> x >> y)`: consecutive
values are consumed two at a time; a trailing unpaired value is discarded
because the second extraction fails and ends the loop. -/
def pairsOf : List ℚ → List Vec2
  | x :: y :: rest => ⟨x, y⟩ :: pairsOf rest
  | _ => []

/-- Assoc-list update for `_animation_paths[animation_id] = path`. -/
def storePath (paths : List (String × AnimationPath)) (id : String)
    (path : AnimationPath) : List (String × AnimationPath) :=
  match paths with
  | [] => [(id, path)]
  | (k, v) :: rest => if k = id then (k, path) :: rest else (k, v) :: storePath rest id path

/-- `AnimationComponent::loadAnimationFromFile` (`core.cpp`, lines 367-387).
The file is embedded as `none` when it could not be opened, and otherwise as
the list of real numbers successfully extracted by `file >> x` before the
first failed extraction (end of file or a malformed token). The parsed pairs
are stored under `animation_id` and `true` is returned exactly when the file
opened and at least one pair was parsed; otherwise `false` is returned and
the path table is untouched. -/
def loadAnimationFromFile (file : Option (List ℚ)) (animation_id : String)
    (duration : ℚ) (paths : List (String × AnimationPath)) :
    Bool × List (String × AnimationPath) :=
  match file with
  | none => (false, paths)
  | some vals =>
      let movements := pairsOf vals
      if movements.length > 0 then
        (true, storePath paths animation_id ⟨movements, duration⟩)
      else (false, paths)

end LegacyAnimation

/-! ## Ballistic spline helper (Character.cpp) -/

/-- `PhysicsComponent::pixels_per_meter` (`core.hpp`, line 463). -/
def pixels_per_meter : ℚ := 120

/-- `calculate_spline(end_point, duration, gravity)` (`Character.cpp`, lines
102-111): scales the gravity by `PhysicsComponent::pixels_per_meter`, then
builds the two (position, tangent) control points
`{(0,0), end_point - gravity/2*t2}` and `{end_point, end_point +
gravity/2*t2}` with `t2 = duration*duration`. -/
def calculate_spline (end_point : Vec2) (duration : ℚ) (gravity : Vec2) :
    (Vec2 × Vec2) × (Vec2 × Vec2) :=
  let g := gravity * pixels_per_meter
  let t2 := duration * duration
  ((⟨0, 0⟩, end_point - g / (2 : ℚ) * t2), (end_point, end_point + g / (2 : ℚ) * t2))

/-- The Hermite blend of `AnimationComponent::update` specialized to the
two-component `Vector2` control points that `calculate_spline` produces
(the blend is componentwise, with the same basis weights `cp0`, `cm0`,
`cm1`, `cp1`). -/
def hermiteBlend2 (s0 s1 : Vec2 × Vec2) (t : ℚ) : Vec2 :=
  s0.1 * cp0 t + s0.2 * cm0 t + s1.1 * cp1 t + s1.2 * cm1 t

/-! ## Spec-side Hermite formula (for the refinement statement of C1) -/

/-- Spec-side basis weight `h_p0 = 2t³ − 3t² + 1` (spec §4.5), written from
the spec's words for comparison against the source blend. -/
def hp0 (t : ℚ) : ℚ := 2 * t ^ 3 - 3 * t ^ 2 + 1

/-- Spec-side basis weight `h_m0 = t³ − 2t² + t` (spec §4.5). -/
def hm0 (t : ℚ) : ℚ := t ^ 3 - 2 * t ^ 2 + t

/-- Spec-side basis weight `h_m1 = t³ − t²` (spec §4.5). -/
def hm1 (t : ℚ) : ℚ := t ^ 3 - t ^ 2

/-- Spec-side basis weight `h_p1 = 3t² − 2t³` (spec §4.5). -/
def hp1 (t : ℚ) : ℚ := 3 * t ^ 2 - 2 * t ^ 3

/-- The spec's offset formula `h_p0·P_i + h_m0·T_i + h_p1·P_{i+1} +
h_m1·T_{i+1}` (spec §4.5), written from the spec's words (its operand order
differs from the source's) for the refinement statement of the per-tick
animation claim. -/
def specHermiteOffset (Pi Ti Pj Tj : Vec3) (t : ℚ) : Vec3 :=
  Pi * hp0 t + Ti * hm0 t + Pj * hp1 t + Tj * hm1 t

/-- Spec §4.5: `segment_duration = duration / (segmentCount − 1)` — the same
expression `_duration / (_currentCurve.size() - 1)` computed by
`AnimationComponent::update`. -/
def segmentDuration (s : AnimationState) : ℚ :=
  s.duration / ((s.currentCurve.length : ℚ) - 1)

/-- Spec §4.5: `i = floor(elapsed / segment_duration)` with `elapsed` the
effective-clock time since the animation start. -/
def segmentIndex (s : AnimationState) (now : ℚ) : ℕ :=
  (⌊(now - s.startTime) / segmentDuration s⌋).toNat

/-- Spec §4.5: `t = (elapsed mod segment_duration) / segment_duration`. -/
def segmentParam (s : AnimationState) (now : ℚ) : ℚ :=
  fmodQ (now - s.startTime) (segmentDuration s) / segmentDuration s

/-! ## Event bus

Two artifacts are embedded. `Notifier` is the registry implemented in
`core.cpp` (lines 31-69): `addObserver` appends an observer at the tail of
the per-event list and `notify` walks that list invoking `onNotify` on each
element in order. `NotificationCenter` is the token/sender-filter registry
the spec's §4.2 describes; its declaration and call sites are in the
sources (`core.hpp`, `animation.cpp`, the qbert entities) but its
implementation file is not, so its dispatch is modelled from the spec. -/

namespace Notifier

/-- The `observers()` map of `Notifier` (`core.cpp`), from event name to the
registered observers in order; observers are embedded as identities `ℕ`. -/
def observersFor (observers : List (String × List ℕ)) (event : String) : List ℕ :=
  match observers with
  | [] => []
  | (k, v) :: rest => if k = event then v else observersFor rest event

/-- `Notifier::addObserver(observer, event)` (`core.cpp`, lines 31-34):
`observers()[event].push_back(observer)` — appends at the tail, creating the
entry when absent (`std::map::operator[]`). -/
def addObserver (observers : List (String × List ℕ)) (observer : ℕ)
    (event : String) : List (String × List ℕ) :=
  match observers with
  | [] => [(event, [observer])]
  | (k, v) :: rest =>
      if k = event then (k, v ++ [observer]) :: rest
      else (k, v) :: addObserver rest observer event

/-- `Notifier::notify(entity, event)` (`core.cpp`, lines 66-69): the
synchronous dispatch sequence — `observer->onNotify(entity, event)` is
invoked for each registered observer of the event, in list order. The
returned list is the sequence of observers invoked, in invocation order. -/
def notify (observers : List (String × List ℕ)) (event : String) : List ℕ :=
  observersFor observers event

end Notifier

namespace NotificationCenter

/-- The registry mutation a handler performs when invoked (handlers are
closures over the registry; the claims only concern handlers that add or
remove subscriptions, or do neither). -/
inductive Effect where
  | nop
  | observeThen (event : String) (token : ℕ) (sender : Option ℕ)
  | unobserveThen (event : String) (token : ℕ)
deriving DecidableEq, Repr

/-- A subscription: its `ObserverID` token, its optional sender filter and
the registry mutation its handler performs when invoked. -/
structure Subscription where
  token : ℕ
  sender : Option ℕ
  effect : Effect
deriving DecidableEq, Repr

/-- Registry from event name to the ordered subscription list. -/
abbrev Registry := List (String × List Subscription)

/-- The subscription list stored for an event. -/
def subsFor (r : Registry) (event : String) : List Subscription :=
  match r with
  | [] => []
  | (k, v) :: rest => if k = event then v else subsFor rest event

/-- Modelled from the spec: `NotificationCenter::observe(block, event,
sender)` (declared in `core.hpp`, implementation not in the sources) —
`appended at the tail (dispatch order = registration order)` (§4.2). -/
def observe (r : Registry) (event : String) (sub : Subscription) : Registry :=
  match r with
  | [] => [(event, [sub])]
  | (k, v) :: rest =>
      if k = event then (k, v ++ [sub]) :: rest
      else (k, v) :: observe rest event sub

/-- Modelled from the spec: `NotificationCenter::unobserve(id, event,
sender)` (declared in `core.hpp`, implementation not in the sources) —
removes the matching entry from the event's list; safe to call from inside
a dispatch (§4.2). -/
def unobserve (r : Registry) (event : String) (token : ℕ) : Registry :=
  match r with
  | [] => []
  | (k, v) :: rest =>
      if k = event then (k, v.filter (fun s => s.token ≠ token)) :: rest
      else (k, v) :: unobserve rest event token

/-- Applies a handler's registry mutation. -/
def applyEffect (eff : Effect) (r : Registry) : Registry :=
  match eff with
  | Effect.nop => r
  | Effect.observeThen e tok sd => observe r e ⟨tok, sd, Effect.nop⟩
  | Effect.unobserveThen e tok => unobserve r e tok

/-- Whether a subscription's sender filter admits the sender: `none` matches
any sender, otherwise the filter must equal the sender (§4.2). -/
def filterMatches (filter : Option ℕ) (sender : ℕ) : Bool :=
  match filter with
  | none => true
  | some s => s = sender

/-- One dispatch step over the snapshot taken at call start: a subscription
is invoked when it is still present in the current registry for the event
and its filter admits the sender; its handler's mutation is then applied and
its token is appended to the invocation log. -/
def notifyGo (event : String) (sender : ℕ) :
    List Subscription → Registry → List ℕ → Registry × List ℕ
  | [], r, log => (r, log)
  | sub :: rest, r, log =>
      if sub ∈ subsFor r event ∧ filterMatches sub.sender sender = true then
        notifyGo event sender rest (applyEffect sub.effect r) (log ++ [sub.token])
      else notifyGo event sender rest r log

/-- Modelled from the spec: `NotificationCenter::notify(event, sender)`
(declared in `core.hpp`, implementation not in the sources) — dispatches
synchronously, in registration order, to every subscription whose filter is
`none` or equals the sender, iterating a snapshot taken at call start;
subscriptions added during the dispatch are not invoked by the in-flight
call, and subscriptions removed during the dispatch are skipped without
error (§4.2). Returns the final registry and the tokens invoked, in
invocation order. -/
def notify (r : Registry) (event : String) (sender : ℕ) : Registry × List ℕ :=
  notifyGo event sender (subsFor r event) r []

end NotificationCenter

/-! ## Timer scheduler (Core) -/

namespace Scheduler

/-- `Core::_TimerType` (`core.hpp`, line 220). -/
inductive TimerType where
  | effective
  | accumulative
deriving DecidableEq, Repr

/-- `Core::_Timer` paired with its `_TimerType` (`core.hpp`, lines 215-223):
the absolute end-time on the timer's clock and its one-shot callback,
embedded as a tag `ℕ` identifying the callback. -/
structure CoreTimer where
  end_time : ℚ
  type : TimerType
  tag : ℕ
deriving DecidableEq, Repr

/-- Scheduler state: the registered timers, the accumulated pause length
(`_pause_duration`) and, while paused, the real time at which `pause()` was
called. The `Core` timer implementation is not in the sources (only its
declaration in `core.hpp` and call sites), so the scheduler is modelled from
the spec's §4.3. -/
structure State where
  timers : List CoreTimer
  pause_duration : ℚ
  pause_start : Option ℚ
deriving DecidableEq, Repr

/-- Modelled from the spec: `Core::effectiveElapsedTime()` — simulation time
that freezes while the engine is paused; all reads after a resume are offset
by the accumulated pause length (§4.3, glossary). `t` is the wall-clock
(accumulative) time of the read. -/
def effectiveElapsedTime (s : State) (t : ℚ) : ℚ :=
  match s.pause_start with
  | some t0 => t0 - s.pause_duration
  | none => t - s.pause_duration

/-- Modelled from the spec: `Core::pause()` — freezes the effective clock
(§4.3). -/
def pause (s : State) (t : ℚ) : State :=
  match s.pause_start with
  | some _ => s
  | none => { s with pause_start := some t }

/-- Modelled from the spec: `Core::resume()` — unfreezes the effective
clock, adding the completed pause to the accumulated pause length (§4.3). -/
def resume (s : State) (t : ℚ) : State :=
  match s.pause_start with
  | some t0 => { s with pause_start := none, pause_duration := s.pause_duration + (t - t0) }
  | none => s

/-- Modelled from the spec: `Core::createEffectiveTimer(duration, block)` —
registers a one-shot callback whose absolute end-time is the effective
clock's current value plus the duration (§4.3). -/
def createEffectiveTimer (s : State) (t duration : ℚ) (tag : ℕ) : State :=
  { s with timers := s.timers ++ [⟨effectiveElapsedTime s t + duration, TimerType.effective, tag⟩] }

/-- Modelled from the spec: `Core::createAccumulativeTimer(duration, block)`
— registers a one-shot callback relative to the wall clock (§4.3). -/
def createAccumulativeTimer (s : State) (t duration : ℚ) (tag : ℕ) : State :=
  { s with timers := s.timers ++ [⟨t + duration, TimerType.accumulative, tag⟩] }

/-- The clock a timer is measured against, read at wall-clock time `t`. -/
def clockValue (s : State) (t : ℚ) : TimerType → ℚ
  | TimerType.effective => effectiveElapsedTime s t
  | TimerType.accumulative => t

/-- Whether a timer's end-time has passed at wall-clock time `t`. -/
def isDue (s : State) (t : ℚ) (tm : CoreTimer) : Bool :=
  tm.end_time ≤ clockValue s t tm.type

/-- A timer's end-time translated onto the wall clock, so that end-times of
the two timer types are interleaved on one common scale: an effective
end-time is shifted by the accumulated pause length. -/
def realEndTime (s : State) (tm : CoreTimer) : ℚ :=
  match tm.type with
  | TimerType.effective => tm.end_time + s.pause_duration
  | TimerType.accumulative => tm.end_time

/-- Modelled from the spec: the per-tick timer pass — `each simulation tick,
before the scene-graph update pass, the scheduler fires and removes every
timer whose end-time has passed`, in ascending end-time order, interleaved
across both timer types by end-time, not by type (§4.3). Returns the state
with the fired timers removed and the tags fired, in firing order. -/
def timerPass (s : State) (t : ℚ) : State × List ℕ :=
  let due := s.timers.filter (isDue s t)
  let ordered := List.insertionSort (fun a b => realEndTime s a ≤ realEndTime s b) due
  ({ s with timers := s.timers.filter (fun tm => !isDue s t tm) },
   ordered.map CoreTimer.tag)

end Scheduler

/-! ## Audio synthesizer envelope (Synthesizer::generate) -/

namespace Synthesizer

/-- Modelled from the spec: the linear fade envelope of
`Synthesizer::generate` (declared in `core.hpp`, lines 148-154;
implementation not in the sources) — a linear ramp over `[0, fade_in]` and a
linear ramp over `[duration − fade_out, duration]`, unity in between
(§4.6). -/
def fadeEnvelope (duration fade_in fade_out t : ℚ) : ℚ :=
  (if t < fade_in then t / fade_in else 1) *
    (if duration - fade_out < t then (duration - t) / fade_out else 1)

/-- Modelled from the spec: the sample `Synthesizer::generate` writes for an
absolute sample frame — `compute time = frame / sample_rate, evaluate the
algorithm, apply a linear fade envelope over [0, fadeIn] and
[duration−fadeOut, duration], scale by maxVolume` (§4.6). The selected
algorithm's output at a time is abstracted as `alg`; the amplitude is kept
in `ℚ` (the final signed-16-bit PCM write is a monotone quantization of this
amplitude). -/
def sampleValue (alg : ℚ → ℚ) (sample_rate : ℕ)
    (max_volume duration fade_in fade_out : ℚ) (frame : ℕ) : ℚ :=
  alg ((frame : ℚ) / sample_rate) *
    fadeEnvelope duration fade_in fade_out ((frame : ℚ) / sample_rate) * max_volume

/-- Modelled from the spec: `Synthesizer::generate(stream, length, frame,
max_volume, duration, fade_in, fade_out)` — fills `length` samples starting
at absolute sample index `frame`, advances the cursor, and signals
completion once the cursor's implied time exceeds the duration (§4.6). -/
def generate (alg : ℚ → ℚ) (sample_rate : ℕ) (length frame : ℕ)
    (max_volume duration fade_in fade_out : ℚ) : List ℚ × ℕ × Bool :=
  ((List.range length).map
      (fun k => sampleValue alg sample_rate max_volume duration fade_in fade_out (frame + k)),
   frame + length,
   decide (duration < ((frame + length : ℕ) : ℚ) / sample_rate))

end Synthesizer

/-! ## Concrete scenario fixtures used by the scenario statements -/

/-- A two-control-point curve used by the concrete animation scenarios. -/
def sampleCurve : List (Vec3 × Vec3) :=
  [(⟨0, 0, 0⟩, ⟨1, 2, 3⟩), (⟨4, 5, 6⟩, ⟨7, 8, 9⟩)]

/-- A three-control-point curve used by the continuity witness. -/
def threePointCurve : List (Vec3 × Vec3) :=
  [(⟨0, 0, 0⟩, ⟨1, 0, 0⟩), (⟨2, 3, 4⟩, ⟨5, 6, 7⟩), (⟨8, 9, 10⟩, ⟨11, 12, 13⟩)]

/-- An animation component mid-animation on `sampleCurve` (duration 0.2 s,
started at effective time 0). -/
def busyAnimState : AnimationState :=
  { animating := true, curves := [("c", sampleCurve)], currentCurve := sampleCurve,
    startPosition := ⟨10, 10, 10⟩, startTime := 0, duration := 1 / 5,
    updateVelocity := false }

/-- The same component while idle. -/
def idleAnimState : AnimationState :=
  { busyAnimState with animating := false }

/-- An animating component whose current curve has exactly one control
point. -/
def singleCpState : AnimationState :=
  { animating := true, curves := [("one", [(⟨1, 1, 1⟩, ⟨2, 2, 2⟩)])],
    currentCurve := [(⟨1, 1, 1⟩, ⟨2, 2, 2⟩)], startPosition := ⟨0, 0, 0⟩,
    startTime := 0, duration := 1, updateVelocity := false }

/-- Runs one scheduler timer pass per listed tick time, threading the state,
and records each tick's fired tags. -/
def tickRun : Scheduler.State → List ℚ → List (ℚ × List ℕ)
  | _, [] => []
  | s, t :: ts =>
      let p := Scheduler.timerPass s t
      (t, p.2) :: tickRun p.1 ts

/-- Spec §8 scenario, step 1: an effective 2-second timer is scheduled at
real time 0 (engine never yet paused). -/
def timerScenarioCreated : Scheduler.State :=
  Scheduler.createEffectiveTimer ⟨[], 0, none⟩ 0 2 0

/-- Spec §8 scenario, step 2: `pause()` is called at real time 1. -/
def timerScenarioPaused : Scheduler.State :=
  Scheduler.pause timerScenarioCreated 1

/-- Spec §8 scenario, step 3: `resume()` is called 3 seconds later, at real
time 4. -/
def timerScenarioResumed : Scheduler.State :=
  Scheduler.resume timerScenarioPaused 4

/-- Registry for the sender-filter scenario (spec §8): two subscriptions to
event `Jump`, token 0 filtered to sender 7, token 1 unfiltered, neither
mutating the registry. -/
def jumpRegistry : NotificationCenter.Registry :=
  [("Jump", [⟨0, some 7, NotificationCenter.Effect.nop⟩,
             ⟨1, none, NotificationCenter.Effect.nop⟩])]

/-- Registry in which the handler of token 0 unsubscribes token 1 (a later,
not yet delivered subscription) during the dispatch. -/
def removesLaterRegistry : NotificationCenter.Registry :=
  [("E", [⟨0, none, NotificationCenter.Effect.unobserveThen "E" 1⟩,
          ⟨1, none, NotificationCenter.Effect.nop⟩,
          ⟨2, none, NotificationCenter.Effect.nop⟩])]

/-- Registry in which the handler of token 1 unsubscribes token 0 (already
delivered in the same dispatch). -/
def removesEarlierRegistry : NotificationCenter.Registry :=
  [("E", [⟨0, none, NotificationCenter.Effect.nop⟩,
          ⟨1, none, NotificationCenter.Effect.unobserveThen "E" 0⟩,
          ⟨2, none, NotificationCenter.Effect.nop⟩])]

/-- Registry in which the handler of token 0 registers a fresh subscription
(token 5) for the same event during the dispatch. -/
def addsDuringDispatchRegistry : NotificationCenter.Registry :=
  [("E", [⟨0, none, NotificationCenter.Effect.observeThen "E" 5 none⟩,
          ⟨1, none, NotificationCenter.Effect.nop⟩])]

/-! ## Helper lemmas -/

theorem vec3_ext_iff (a b : Vec3) : a = b ↔ a.x = b.x ∧ a.y = b.y ∧ a.z = b.z := by
  constructor
  · intro h; subst h; exact ⟨rfl, rfl, rfl⟩
  · rintro ⟨h1, h2, h3⟩; cases a; cases b; simp_all

theorem vec3_add_def (a b : Vec3) : a + b = ⟨a.x + b.x, a.y + b.y, a.z + b.z⟩ := rfl

theorem vec3_mul_def (v : Vec3) (c : ℚ) : v * c = ⟨v.x * c, v.y * c, v.z * c⟩ := rfl

theorem vec3_div_def (v : Vec3) (c : ℚ) : v / c = ⟨v.x / c, v.y / c, v.z / c⟩ := rfl

theorem vec2_ext_iff (a b : Vec2) : a = b ↔ a.x = b.x ∧ a.y = b.y := by
  constructor
  · intro h; subst h; exact ⟨rfl, rfl⟩
  · rintro ⟨h1, h2⟩; cases a; cases b; simp_all

theorem vec2_add_def (a b : Vec2) : a + b = ⟨a.x + b.x, a.y + b.y⟩ := rfl

theorem vec2_sub_def (a b : Vec2) : a - b = ⟨a.x - b.x, a.y - b.y⟩ := rfl

theorem vec2_mul_def (v : Vec2) (c : ℚ) : v * c = ⟨v.x * c, v.y * c⟩ := rfl

theorem vec2_div_def (v : Vec2) (c : ℚ) : v / c = ⟨v.x / c, v.y / c⟩ := rfl

theorem hermiteBlend_eq_spec (s0 s1 : Vec3 × Vec3) (t : ℚ) :
    hermiteBlend s0 s1 t = specHermiteOffset s0.1 s0.2 s1.1 s1.2 t := by
  rw [vec3_ext_iff]
  simp only [hermiteBlend, specHermiteOffset, cp0, cm0, cm1, cp1, hp0, hm0, hm1, hp1,
    vec3_mul_def, vec3_add_def]
  refine ⟨by ring_nf, by ring_nf, by ring_nf⟩

theorem hermiteBlend_at_one (s0 s1 : Vec3 × Vec3) : hermiteBlend s0 s1 1 = s1.1 := by
  rw [vec3_ext_iff]
  simp only [hermiteBlend, cp0, cm0, cm1, cp1, vec3_mul_def, vec3_add_def]
  norm_num

theorem hermiteBlend_at_zero (s0 s1 : Vec3 × Vec3) : hermiteBlend s0 s1 0 = s0.1 := by
  rw [vec3_ext_iff]
  simp only [hermiteBlend, cp0, cm0, cm1, cp1, vec3_mul_def, vec3_add_def]
  norm_num

theorem segmentDuration_pos (s : AnimationState) (hn : 2 ≤ s.currentCurve.length)
    (hd : 0 < s.duration) : 0 < segmentDuration s := by
  have hn2 : (2 : ℚ) ≤ (s.currentCurve.length : ℚ) := by exact_mod_cast hn
  exact div_pos hd (by linarith)

theorem segmentIndex_succ_lt (s : AnimationState) (now : ℚ)
    (hn : 2 ≤ s.currentCurve.length) (hd : 0 < s.duration)
    (h0 : 0 ≤ now - s.startTime) (h1 : now - s.startTime < s.duration) :
    segmentIndex s now + 1 < s.currentCurve.length := by
  have hn2 : (2 : ℚ) ≤ (s.currentCurve.length : ℚ) := by exact_mod_cast hn
  have hdt : 0 < segmentDuration s := segmentDuration_pos s hn hd
  have hq : (now - s.startTime) / segmentDuration s < (s.currentCurve.length : ℚ) - 1 := by
    rw [div_lt_iff₀ hdt]
    have hmul : ((s.currentCurve.length : ℚ) - 1) * segmentDuration s = s.duration := by
      rw [segmentDuration, mul_div_cancel₀]
      linarith
    linarith [hmul]
  have hfl : ⌊(now - s.startTime) / segmentDuration s⌋ < (s.currentCurve.length : ℤ) - 1 := by
    rw [Int.floor_lt]
    push_cast
    exact hq
  have hnn : 0 ≤ ⌊(now - s.startTime) / segmentDuration s⌋ :=
    Int.floor_nonneg.mpr (div_nonneg h0 hdt.le)
  rw [segmentIndex]
  omega

theorem update_mid_eq (s : AnimationState) (e : EntityState) (now : ℚ)
    (hA : s.animating = true) (h1 : now - s.startTime < s.duration)
    (si sj : Vec3 × Vec3)
    (hsi : s.currentCurve[segmentIndex s now]? = some si)
    (hsj : s.currentCurve[segmentIndex s now + 1]? = some sj) :
    AnimationComponent.update s e now =
      some (s, { e with position := s.startPosition + hermiteBlend si sj (segmentParam s now) },
            []) := by
  simp only [segmentIndex, segmentDuration] at hsi hsj
  simp only [AnimationComponent.update, hA, if_pos h1, hsi, hsj, segmentParam, segmentIndex,
    segmentDuration, if_true]

/-! ## Claim theorems -/

/-- C4: `performAnimation(id, duration, updateVelocity)` is a no-op — state
unchanged, no event emitted — whenever the component is already animating or
the id names no stored curve; otherwise it captures the entity's current
local position as the origin, stamps the start time from the effective
clock, sets the animating flag and emits exactly one `DidStartAnimating`
event. -/
theorem performAnimation_noop_or_start (s : AnimationState) (p : Vec3) (now : ℚ)
    (id : String) (d : ℚ) (uv : Bool) :
    (s.animating = true →
      AnimationComponent.performAnimation s p now id d uv = (s, [])) ∧
    (AnimationComponent.findCurve s.curves id = none →
      AnimationComponent.performAnimation s p now id d uv = (s, [])) ∧
    (∀ c, s.animating = false → AnimationComponent.findCurve s.curves id = some c →
      AnimationComponent.performAnimation s p now id d uv =
        ({ s with animating := true, currentCurve := c, startPosition := p,
                  startTime := now, duration := d, updateVelocity := uv },
         [EngineEvent.didStartAnimating])) := by
  refine ⟨fun h => ?_, fun h => ?_, fun c hA hc => ?_⟩
  · simp [AnimationComponent.performAnimation, h]
  · cases hA : s.animating with
    | true => simp [AnimationComponent.performAnimation, hA]
    | false => simp [AnimationComponent.performAnimation, hA, h]
  · simp [AnimationComponent.performAnimation, hA, hc]

/-- Witness for C4 at a concrete idle component and stored curve. -/
theorem performAnimation_noop_or_start_witness :
    idleAnimState.animating = false ∧
    AnimationComponent.findCurve idleAnimState.curves "c" = some sampleCurve ∧
    AnimationComponent.performAnimation idleAnimState ⟨1, 2, 3⟩ 5 "c" 2 true =
      ({ idleAnimState with
          animating := true
          currentCurve := sampleCurve
          startPosition := ⟨1, 2, 3⟩
          startTime := 5
          duration := 2
          updateVelocity := true },
       [EngineEvent.didStartAnimating]) :=
  ⟨by decide, by decide,
    (performAnimation_noop_or_start idleAnimState ⟨1, 2, 3⟩ 5 "c" 2 true).2.2
      sampleCurve (by decide) (by decide)⟩

/-- C5: on an update tick with elapsed effective time ≥ duration, the entity
position is set exactly to the origin plus the final control point's
position, the velocity is overwritten with (final tangent / duration)
exactly when the `updateVelocity` flag was passed, the animating flag is
cleared and `DidStopAnimating` is emitted. -/
theorem update_finish_branch (s : AnimationState) (e : EntityState) (now : ℚ)
    (hA : s.animating = true) (hne : s.currentCurve ≠ [])
    (hdone : s.duration ≤ now - s.startTime) :
    ∃ lastCp, s.currentCurve.getLast? = some lastCp ∧
      AnimationComponent.update s e now =
        some ({ s with animating := false },
              { position := s.startPosition + lastCp.1,
                velocity := if s.updateVelocity then lastCp.2 / s.duration else e.velocity },
              [EngineEvent.didStopAnimating]) := by
  obtain ⟨lastCp, hlast⟩ : ∃ lc, s.currentCurve.getLast? = some lc := by
    cases h : s.currentCurve.getLast? with
    | none => exact absurd (List.getLast?_eq_none_iff.mp h) hne
    | some lc => exact ⟨lc, rfl⟩
  refine ⟨lastCp, hlast, ?_⟩
  simp [AnimationComponent.update, hA, not_lt.mpr hdone, hlast]

/-- Witness for C5 at a concrete two-point curve past its duration, with the
velocity-update flag both set and cleared. -/
theorem update_finish_branch_witness :
    (∃ lastCp, busyAnimState.currentCurve.getLast? = some lastCp ∧
      AnimationComponent.update busyAnimState ⟨⟨0, 0, 0⟩, ⟨9, 9, 9⟩⟩ (1 : ℚ) =
        some ({ busyAnimState with animating := false },
              { position := busyAnimState.startPosition + lastCp.1,
                velocity := if busyAnimState.updateVelocity then lastCp.2 / busyAnimState.duration
                            else (⟨9, 9, 9⟩ : Vec3) },
              [EngineEvent.didStopAnimating])) := by
  exact update_finish_branch busyAnimState ⟨⟨0, 0, 0⟩, ⟨9, 9, 9⟩⟩ 1
    (by decide) (by decide) (by norm_num [busyAnimState])

/-- C7: the legacy animation-path loader returns `true` and stores the
parsed path under the animation id exactly when the file could be opened and
at least one (x, y) pair was parsed; on every failing call it returns
`false` and the path table is left unchanged. -/
theorem loadAnimationFromFile_contract (file : Option (List ℚ)) (id : String)
    (d : ℚ) (paths : List (String × LegacyAnimation.AnimationPath)) :
    ((LegacyAnimation.loadAnimationFromFile file id d paths).1 = true ↔
      ∃ vals, file = some vals ∧ 0 < (LegacyAnimation.pairsOf vals).length) ∧
    ((LegacyAnimation.loadAnimationFromFile file id d paths).1 = false →
      (LegacyAnimation.loadAnimationFromFile file id d paths).2 = paths) ∧
    (∀ vals, file = some vals → 0 < (LegacyAnimation.pairsOf vals).length →
      LegacyAnimation.loadAnimationFromFile file id d paths =
        (true, LegacyAnimation.storePath paths id ⟨LegacyAnimation.pairsOf vals, d⟩)) := by
  refine ⟨?_, ?_, ?_⟩
  · cases file with
    | none => simp [LegacyAnimation.loadAnimationFromFile]
    | some vals =>
        by_cases h : 0 < (LegacyAnimation.pairsOf vals).length
        · simp [LegacyAnimation.loadAnimationFromFile, h]
        · simp [LegacyAnimation.loadAnimationFromFile, h]
  · cases file with
    | none => simp [LegacyAnimation.loadAnimationFromFile]
    | some vals =>
        by_cases h : 0 < (LegacyAnimation.pairsOf vals).length
        · simp [LegacyAnimation.loadAnimationFromFile, h]
        · simp [LegacyAnimation.loadAnimationFromFile, h]
  · intro vals hv h
    subst hv
    simp [LegacyAnimation.loadAnimationFromFile, h]

/-- Witness for C7: a file of five reals parses two pairs (the unpaired
trailing value is discarded) and is stored; a one-value file and an
unopenable file fail without mutating the table. -/
theorem loadAnimationFromFile_contract_witness :
    LegacyAnimation.loadAnimationFromFile (some [1, 2, 3, 4, 5]) "a" 2 [] =
      (true, LegacyAnimation.storePath [] "a" ⟨LegacyAnimation.pairsOf [1, 2, 3, 4, 5], 2⟩) ∧
    (LegacyAnimation.loadAnimationFromFile (some [1]) "a" 2 []).2 = [] ∧
    (LegacyAnimation.loadAnimationFromFile (none : Option (List ℚ)) "a" 2 []).2 = [] := by
  refine ⟨(loadAnimationFromFile_contract (some [1, 2, 3, 4, 5]) "a" 2 []).2.2
      [1, 2, 3, 4, 5] rfl (by decide),
    (loadAnimationFromFile_contract (some [1]) "a" 2 []).2.1 (by decide),
    (loadAnimationFromFile_contract (none : Option (List ℚ)) "a" 2 []).2.1 (by decide)⟩

/-- C8: for a curve with at least three control points and an interior index
`i`, the Hermite blend at `t = 1` on the segment between control points `i`
and `i+1` equals the blend at `t = 0` on the segment between control points
`i+1` and `i+2`, both being the position of control point `i+1`, so the
evaluated animation position is continuous across adjacent segments. -/
theorem hermite_adjacent_segment_continuity (c : List (Vec3 × Vec3)) (i : ℕ)
    (h : i + 2 < c.length) :
    hermiteBlend (c.get ⟨i, by omega⟩) (c.get ⟨i + 1, by omega⟩) 1 =
      (c.get ⟨i + 1, by omega⟩).1 ∧
    hermiteBlend (c.get ⟨i + 1, by omega⟩) (c.get ⟨i + 2, h⟩) 0 =
      (c.get ⟨i + 1, by omega⟩).1 :=
  ⟨hermiteBlend_at_one _ _, hermiteBlend_at_zero _ _⟩

/-- Witness for C8 on a concrete three-point curve at its interior index. -/
theorem hermite_adjacent_segment_continuity_witness :
    hermiteBlend (threePointCurve.get ⟨0, by decide⟩) (threePointCurve.get ⟨1, by decide⟩) 1 =
      (threePointCurve.get ⟨1, by decide⟩).1 ∧
    hermiteBlend (threePointCurve.get ⟨1, by decide⟩) (threePointCurve.get ⟨2, by decide⟩) 0 =
      (threePointCurve.get ⟨1, by decide⟩).1 :=
  hermite_adjacent_segment_continuity threePointCurve 0 (by decide)

/-- C1: while an animation is in progress and elapsed effective-clock time
since start is strictly less than the duration, `update` sets the entity's
position to the animation origin plus the spec's Hermite blend
`h_p0·P_i + h_m0·T_i + h_p1·P_{i+1} + h_m1·T_{i+1}` evaluated at
`i = floor(elapsed / segment_duration)` and
`t = (elapsed mod segment_duration) / segment_duration`, where
`segment_duration = duration / (segmentCount − 1)`. -/
theorem update_mid_blend (s : AnimationState) (e : EntityState) (now : ℚ)
    (hA : s.animating = true) (hn : 2 ≤ s.currentCurve.length)
    (hd : 0 < s.duration) (h0 : 0 ≤ now - s.startTime)
    (h1 : now - s.startTime < s.duration) :
    ∃ si sj,
      s.currentCurve[segmentIndex s now]? = some si ∧
      s.currentCurve[segmentIndex s now + 1]? = some sj ∧
      AnimationComponent.update s e now =
        some (s,
              { e with position := s.startPosition +
                  specHermiteOffset si.1 si.2 sj.1 sj.2 (segmentParam s now) },
              []) := by
  have hb := segmentIndex_succ_lt s now hn hd h0 h1
  have hi : segmentIndex s now < s.currentCurve.length := by omega
  obtain ⟨si, hsi⟩ : ∃ a, s.currentCurve[segmentIndex s now]? = some a :=
    ⟨_, List.getElem?_eq_getElem hi⟩
  obtain ⟨sj, hsj⟩ : ∃ a, s.currentCurve[segmentIndex s now + 1]? = some a :=
    ⟨_, List.getElem?_eq_getElem hb⟩
  exact ⟨si, sj, hsi, hsj, by
    rw [update_mid_eq s e now hA h1 si sj hsi hsj, hermiteBlend_eq_spec]⟩

/-- Witness for C1 at the spec's scenario: a two-control-point curve of
duration 0.2 s evaluated at elapsed 0.1 s, which is segment 0 at parameter
t = 0.5. -/
theorem update_mid_blend_witness :
    segmentIndex busyAnimState (1 / 10) = 0 ∧
    segmentParam busyAnimState (1 / 10) = 1 / 2 ∧
    (∃ si sj,
      busyAnimState.currentCurve[segmentIndex busyAnimState (1 / 10)]? = some si ∧
      busyAnimState.currentCurve[segmentIndex busyAnimState (1 / 10) + 1]? = some sj ∧
      AnimationComponent.update busyAnimState ⟨⟨0, 0, 0⟩, ⟨0, 0, 0⟩⟩ (1 / 10) =
        some (busyAnimState,
              { position := busyAnimState.startPosition +
                  specHermiteOffset si.1 si.2 sj.1 sj.2 (segmentParam busyAnimState (1 / 10)),
                velocity := ⟨0, 0, 0⟩ },
              [])) := by
  have hfloor : ⌊(1 / 10 - busyAnimState.startTime) / segmentDuration busyAnimState⌋ = 0 := by
    rw [Int.floor_eq_zero_iff]
    constructor <;> norm_num [segmentDuration, busyAnimState, sampleCurve]
  refine ⟨?_, ?_, ?_⟩
  · rw [segmentIndex, hfloor]
    rfl
  · rw [segmentParam, fmodQ, hfloor]
    norm_num [segmentDuration, busyAnimState, sampleCurve]
  · exact update_mid_blend busyAnimState ⟨⟨0, 0, 0⟩, ⟨0, 0, 0⟩⟩ (1 / 10)
      (by decide) (by decide) (by norm_num [busyAnimState])
      (by norm_num [busyAnimState]) (by norm_num [busyAnimState])

/-- C10: `performAnimation` enforces no minimum number of control points —
it starts an animation on any stored curve — and consequently, on a curve
with exactly one control point, the next update tick with elapsed less than
the duration computes the per-segment duration by dividing by
(control-point count − 1) = 0 and reads the control point at index 1, which
on the one-element curve cannot return a value (`update` yields `none`);
the in-bounds access of both control points requires at least two control
points (then `update` yields a value). -/
theorem animation_requires_two_control_points :
    (∀ (s : AnimationState) (p : Vec3) (now : ℚ) (id : String) (d : ℚ) (uv : Bool) c,
       s.animating = false → AnimationComponent.findCurve s.curves id = some c →
       (AnimationComponent.performAnimation s p now id d uv).1.animating = true ∧
       (AnimationComponent.performAnimation s p now id d uv).1.currentCurve = c) ∧
    (∀ (s : AnimationState) (e : EntityState) (now : ℚ),
       s.animating = true → s.currentCurve.length = 1 →
       now - s.startTime < s.duration →
       AnimationComponent.update s e now = none) ∧
    (∀ (s : AnimationState) (e : EntityState) (now : ℚ),
       s.animating = true → 2 ≤ s.currentCurve.length → 0 < s.duration →
       0 ≤ now - s.startTime → now - s.startTime < s.duration →
       (AnimationComponent.update s e now).isSome = true) := by
  refine ⟨fun s p now id d uv c hA hc => ?_, fun s e now hA hlen h1 => ?_,
    fun s e now hA hn hd h0 h1 => ?_⟩
  · simp [AnimationComponent.performAnimation, hA, hc]
  · obtain ⟨cp, hcp⟩ := List.length_eq_one.mp hlen
    simp [AnimationComponent.update, hA, hcp, h1]
  · have hb := segmentIndex_succ_lt s now hn hd h0 h1
    have hi : segmentIndex s now < s.currentCurve.length := by omega
    rw [update_mid_eq s e now hA h1 (s.currentCurve.get ⟨_, hi⟩) (s.currentCurve.get ⟨_, hb⟩)
      (by simp [List.getElem?_eq_getElem hi])
      (by simp [List.getElem?_eq_getElem hb])]
    rfl

/-- Witness for C10: a concrete one-control-point curve is accepted by
`performAnimation`, and the next mid-animation update yields no value. -/
theorem animation_requires_two_control_points_witness :
    (AnimationComponent.performAnimation { singleCpState with animating := false }
        ⟨0, 0, 0⟩ 0 "one" 1 false).1.animating = true ∧
    AnimationComponent.update singleCpState ⟨⟨0, 0, 0⟩, ⟨0, 0, 0⟩⟩ (1 / 2) = none ∧
    (AnimationComponent.update busyAnimState ⟨⟨0, 0, 0⟩, ⟨0, 0, 0⟩⟩ (1 / 10)).isSome = true := by
  refine ⟨(animation_requires_two_control_points.1 { singleCpState with animating := false }
      ⟨0, 0, 0⟩ 0 "one" 1 false [(⟨1, 1, 1⟩, ⟨2, 2, 2⟩)] rfl (by decide)).1, ?_, ?_⟩
  · exact animation_requires_two_control_points.2.1 singleCpState ⟨⟨0, 0, 0⟩, ⟨0, 0, 0⟩⟩ (1 / 2)
      (by decide) (by decide) (by norm_num [singleCpState])
  · exact animation_requires_two_control_points.2.2 busyAnimState ⟨⟨0, 0, 0⟩, ⟨0, 0, 0⟩⟩ (1 / 10)
      (by decide) (by decide) (by norm_num [busyAnimState]) (by norm_num [busyAnimState])
      (by norm_num [busyAnimState])

/-- Counterexample to C6 as stated: `calculate_spline` first scales the
gravity by `PhysicsComponent::pixels_per_meter = 120`, so for displacement
(1,0), duration 1 and gravity (0,1) the start tangent is (1,−60), not the
claimed `end − g·d²/2 = (1,−1/2)`. -/
theorem calculate_spline_unscaled_gravity_cex :
    (calculate_spline ⟨1, 0⟩ 1 ⟨0, 1⟩).1.2 ≠
      (⟨1, 0⟩ : Vec2) - (⟨0, 1⟩ : Vec2) / (2 : ℚ) * ((1 : ℚ) * 1) := by
  simp only [calculate_spline, pixels_per_meter, vec2_ext_iff, vec2_sub_def, vec2_mul_def,
    vec2_div_def]
  norm_num

/-- C6 (amended): with the gravity converted to pixel units,
`g_px = g · pixels_per_meter`, the precomputed ballistic curve consists of
exactly the two control points `(0,0)` with start tangent
`m0 = end − g_px·d²/2` and `end` with end tangent `m1 = end + g_px·d²/2`;
the Hermite blend of these two control points equals
`end·t + g_px·d²·(t²−t)/2`, which is projectile motion under `g_px`: at real
time `τ = t·d` it equals `(m0/d)·τ + g_px·τ²/2`, reaching exactly `end` at
`τ = d`. -/
theorem calculate_spline_ballistic (end_point : Vec2) (d : ℚ) (g : Vec2) :
    calculate_spline end_point d g =
      ((⟨0, 0⟩, end_point - g * pixels_per_meter / (2 : ℚ) * (d * d)),
       (end_point, end_point + g * pixels_per_meter / (2 : ℚ) * (d * d))) ∧
    (∀ t : ℚ,
      hermiteBlend2 (⟨0, 0⟩, end_point - g * pixels_per_meter / (2 : ℚ) * (d * d))
          (end_point, end_point + g * pixels_per_meter / (2 : ℚ) * (d * d)) t =
        end_point * t + g * pixels_per_meter * ((t ^ 2 - t) * (d * d) / 2)) ∧
    (d ≠ 0 → ∀ t : ℚ,
      hermiteBlend2 (⟨0, 0⟩, end_point - g * pixels_per_meter / (2 : ℚ) * (d * d))
          (end_point, end_point + g * pixels_per_meter / (2 : ℚ) * (d * d)) t =
        (end_point - g * pixels_per_meter / (2 : ℚ) * (d * d)) / d * (t * d) +
          g * pixels_per_meter * ((t * d) * (t * d) / 2)) ∧
    hermiteBlend2 (⟨0, 0⟩, end_point - g * pixels_per_meter / (2 : ℚ) * (d * d))
        (end_point, end_point + g * pixels_per_meter / (2 : ℚ) * (d * d)) 1 = end_point := by
  refine ⟨rfl, fun t => ?_, fun hd t => ?_, ?_⟩
  · rw [vec2_ext_iff]
    simp only [hermiteBlend2, cp0, cm0, cm1, cp1, vec2_mul_def, vec2_add_def, vec2_sub_def,
      vec2_div_def, pixels_per_meter]
    constructor <;> ring
  · rw [vec2_ext_iff]
    simp only [hermiteBlend2, cp0, cm0, cm1, cp1, vec2_mul_def, vec2_add_def, vec2_sub_def,
      vec2_div_def, pixels_per_meter]
    constructor <;> (field_simp; ring)
  · rw [vec2_ext_iff]
    simp only [hermiteBlend2, cp0, cm0, cm1, cp1, vec2_mul_def, vec2_add_def, vec2_sub_def,
      vec2_div_def, pixels_per_meter]
    constructor <;> ring

/-- Witness for C6 (amended) at a concrete spline with nonzero duration,
instantiating the projectile-motion form at t = 1/2. -/
theorem calculate_spline_ballistic_witness :
    hermiteBlend2
        (⟨0, 0⟩, (⟨3, 4⟩ : Vec2) - (⟨0, 1⟩ : Vec2) * pixels_per_meter / (2 : ℚ) * ((2 : ℚ) * 2))
        ((⟨3, 4⟩ : Vec2),
          (⟨3, 4⟩ : Vec2) + (⟨0, 1⟩ : Vec2) * pixels_per_meter / (2 : ℚ) * ((2 : ℚ) * 2))
        (1 / 2) =
      ((⟨3, 4⟩ : Vec2) - (⟨0, 1⟩ : Vec2) * pixels_per_meter / (2 : ℚ) * ((2 : ℚ) * 2)) / (2 : ℚ) *
          ((1 / 2 : ℚ) * 2) +
        (⟨0, 1⟩ : Vec2) * pixels_per_meter * (((1 / 2 : ℚ) * 2) * ((1 / 2 : ℚ) * 2) / 2) :=
  (calculate_spline_ballistic ⟨3, 4⟩ 2 ⟨0, 1⟩).2.2.1 (by norm_num) (1 / 2)

/-- C9: `generate` applies the linear fade envelope before scaling by the
maximum volume; on the fade-out ramp (`duration − fadeOut < t < duration`)
the envelope equals `(duration − t)/fadeOut`, strictly between 0 and 1, so
the written sample is attenuated strictly below full volume; in particular a
call with duration 1.5 s and fade-out 1 s at a cursor whose implied time is
1.2 s produces the algorithm output scaled by 3/10 times the maximum
volume. -/
theorem generate_fade_out_attenuation :
    (∀ (duration fade_in fade_out t : ℚ),
       0 < fade_out → fade_in ≤ duration - fade_out →
       duration - fade_out < t → t < duration →
       Synthesizer.fadeEnvelope duration fade_in fade_out t = (duration - t) / fade_out ∧
       0 < Synthesizer.fadeEnvelope duration fade_in fade_out t ∧
       Synthesizer.fadeEnvelope duration fade_in fade_out t < 1) ∧
    (∀ (alg : ℚ → ℚ) (sample_rate : ℕ) (max_volume duration fade_in fade_out : ℚ)
       (frame : ℕ),
       0 < fade_out → fade_in ≤ duration - fade_out →
       duration - fade_out < (frame : ℚ) / sample_rate →
       (frame : ℚ) / sample_rate < duration →
       alg ((frame : ℚ) / sample_rate) * max_volume ≠ 0 →
       |Synthesizer.sampleValue alg sample_rate max_volume duration fade_in fade_out frame| <
         |alg ((frame : ℚ) / sample_rate) * max_volume|) ∧
    (∀ (alg : ℚ → ℚ) (max_volume fade_in : ℚ),
       fade_in ≤ 1 / 2 →
       (Synthesizer.generate alg 10 1 12 max_volume (3 / 2) fade_in 1).1 =
         [alg (6 / 5) * (3 / 10) * max_volume]) := by
  have envMain : ∀ (duration fade_in fade_out t : ℚ),
      0 < fade_out → fade_in ≤ duration - fade_out →
      duration - fade_out < t → t < duration →
      Synthesizer.fadeEnvelope duration fade_in fade_out t = (duration - t) / fade_out ∧
      0 < Synthesizer.fadeEnvelope duration fade_in fade_out t ∧
      Synthesizer.fadeEnvelope duration fade_in fade_out t < 1 := by
    intro duration fi fo t hfo hfi hlo hhi
    have h1 : ¬ t < fi := not_lt.mpr (le_trans hfi (le_of_lt hlo))
    rw [Synthesizer.fadeEnvelope, if_neg h1, if_pos hlo, one_mul]
    exact ⟨rfl, div_pos (by linarith) hfo, (div_lt_one hfo).mpr (by linarith)⟩
  refine ⟨envMain, fun alg sr mv duration fi fo frame hfo hfi hlo hhi hne => ?_,
    fun alg mv fi hfi => ?_⟩
  · obtain ⟨henv, hpos, hlt⟩ := envMain duration fi fo ((frame : ℚ) / sr) hfo hfi hlo hhi
    rw [Synthesizer.sampleValue,
      show alg ((frame : ℚ) / sr) * Synthesizer.fadeEnvelope duration fi fo ((frame : ℚ) / sr)
          * mv =
        alg ((frame : ℚ) / sr) * mv * Synthesizer.fadeEnvelope duration fi fo ((frame : ℚ) / sr)
        from by ring,
      abs_mul, abs_of_pos hpos]
    calc |alg ((frame : ℚ) / sr) * mv| * Synthesizer.fadeEnvelope duration fi fo ((frame : ℚ) / sr)
        < |alg ((frame : ℚ) / sr) * mv| * 1 :=
          mul_lt_mul_of_pos_left hlt (abs_pos.mpr hne)
      _ = |alg ((frame : ℚ) / sr) * mv| := mul_one _
  · have h1 : ¬ ((6 : ℚ) / 5 < fi) := by
      rw [not_lt]
      linarith
    have hr : List.range 1 = [0] := rfl
    simp only [Synthesizer.generate, hr, List.map_cons, List.map_nil,
      Synthesizer.sampleValue, Synthesizer.fadeEnvelope]
    norm_num [h1]

/-- Witness for C9 at a concrete constant-1 algorithm and full volume: the
single generated sample at implied time 1.2 s is 3/10, strictly below the
full-volume amplitude 1. -/
theorem generate_fade_out_attenuation_witness :
    (Synthesizer.generate (fun _ => 1) 10 1 12 1 (3 / 2) (1 / 100) 1).1 = [3 / 10] ∧
    |Synthesizer.sampleValue (fun _ => 1) 10 1 (3 / 2) (1 / 100) 1 12| < 1 := by
  constructor
  · rw [generate_fade_out_attenuation.2.2 (fun _ => 1) 1 (1 / 100) (by norm_num)]
    norm_num
  · have h := generate_fade_out_attenuation.2.1 (fun _ => (1 : ℚ)) 10 1 (3 / 2) (1 / 100) 1 12
      (by norm_num) (by norm_num) (by norm_num) (by norm_num) (by norm_num)
    simpa using h

namespace Notifier

theorem observersFor_addObserver (obs : List (String × List ℕ)) (o : ℕ) (event : String) :
    observersFor (addObserver obs o event) event = observersFor obs event ++ [o] := by
  induction obs with
  | nil => simp [addObserver, observersFor]
  | cons kv rest ih =>
      obtain ⟨k, v⟩ := kv
      by_cases h : k = event
      · simp [addObserver, observersFor, h]
      · simp [addObserver, observersFor, h, ih]

end Notifier

namespace NotificationCenter

theorem subsFor_observe (r : Registry) (event : String) (sub : Subscription) :
    subsFor (observe r event sub) event = subsFor r event ++ [sub] := by
  induction r with
  | nil => simp [observe, subsFor]
  | cons kv rest ih =>
      obtain ⟨k, v⟩ := kv
      by_cases h : k = event
      · simp [observe, subsFor, h]
      · simp [observe, subsFor, h, ih]

theorem notifyGo_pair (event : String) (sender : ℕ) (l : List Subscription) :
    ∀ (r : Registry) (log : List ℕ),
      notifyGo event sender l r log =
        ((notifyGo event sender l r []).1, log ++ (notifyGo event sender l r []).2) := by
  induction l with
  | nil => intro r log; simp [notifyGo]
  | cons sub rest ih =>
      intro r log
      simp only [notifyGo]
      split_ifs with h
      · rw [ih (applyEffect sub.effect r) (log ++ [sub.token]),
          ih (applyEffect sub.effect r) ([] ++ [sub.token])]
        simp
      · rw [ih r log]

theorem notifyGo_sublist (event : String) (sender : ℕ) (l : List Subscription) :
    ∀ r : Registry,
      ((notifyGo event sender l r []).2).Sublist (l.map Subscription.token) := by
  induction l with
  | nil => intro r; simp [notifyGo]
  | cons sub rest ih =>
      intro r
      simp only [notifyGo, List.map_cons]
      split_ifs with h
      · rw [notifyGo_pair event sender rest (applyEffect sub.effect r) ([] ++ [sub.token])]
        simpa using List.Sublist.cons₂ sub.token (ih (applyEffect sub.effect r))
      · exact (ih r).cons _

theorem notifyGo_nop (event : String) (sender : ℕ) :
    ∀ (l : List Subscription) (r : Registry),
      (∀ sub ∈ l, sub ∈ subsFor r event) →
      (∀ sub ∈ l, sub.effect = Effect.nop) →
      notifyGo event sender l r [] =
        (r, (l.filter (fun sub => filterMatches sub.sender sender)).map Subscription.token) := by
  intro l
  induction l with
  | nil => intro r _ _; simp [notifyGo]
  | cons sub rest ih =>
      intro r hmem hnop
      have hs : sub ∈ subsFor r event := hmem sub (List.mem_cons_self _ _)
      have hn : sub.effect = Effect.nop := hnop sub (List.mem_cons_self _ _)
      have hrest1 : ∀ s ∈ rest, s ∈ subsFor r event :=
        fun s hsm => hmem s (List.mem_cons_of_mem _ hsm)
      have hrest2 : ∀ s ∈ rest, s.effect = Effect.nop :=
        fun s hsm => hnop s (List.mem_cons_of_mem _ hsm)
      simp only [notifyGo]
      by_cases hm : filterMatches sub.sender sender = true
      · rw [if_pos ⟨hs, hm⟩, hn]
        rw [show applyEffect Effect.nop r = r from rfl,
          notifyGo_pair event sender rest r ([] ++ [sub.token]), ih r hrest1 hrest2]
        simp [List.filter_cons, hm]
      · rw [if_neg (fun hc => hm hc.2)]
        rw [ih r hrest1 hrest2]
        simp [List.filter_cons, hm]

end NotificationCenter

/-- C2: for every event, dispatch is synchronous and follows registration
order — `observe`/`addObserver` append at the tail, the invocation log of
`notify` is an in-order sublist of the snapshot taken at call start, and
with no re-entrant mutation it is exactly the filter-matching subscriptions
in registration order; a subscription added during the in-flight call (its
token is not in the snapshot) is never invoked by that call, and removing a
subscription during the dispatch skips it without error while leaving the
rest of the in-flight delivery intact (concrete removal scenarios). -/
theorem notify_order_snapshot_reentrancy :
    (∀ (r : NotificationCenter.Registry) (event : String)
       (sub : NotificationCenter.Subscription),
       NotificationCenter.subsFor (NotificationCenter.observe r event sub) event =
         NotificationCenter.subsFor r event ++ [sub]) ∧
    (∀ (obs : List (String × List ℕ)) (o : ℕ) (event : String),
       Notifier.notify (Notifier.addObserver obs o event) event =
         Notifier.notify obs event ++ [o]) ∧
    (∀ (r : NotificationCenter.Registry) (event : String) (sender : ℕ),
       ((NotificationCenter.notify r event sender).2).Sublist
         ((NotificationCenter.subsFor r event).map NotificationCenter.Subscription.token)) ∧
    (∀ (r : NotificationCenter.Registry) (event : String) (sender : ℕ),
       (∀ sub ∈ NotificationCenter.subsFor r event,
          sub.effect = NotificationCenter.Effect.nop) →
       NotificationCenter.notify r event sender =
         (r, ((NotificationCenter.subsFor r event).filter
              (fun sub => NotificationCenter.filterMatches sub.sender sender)).map
                NotificationCenter.Subscription.token)) ∧
    (∀ (r : NotificationCenter.Registry) (event : String) (sender : ℕ) (tok : ℕ),
       tok ∉ (NotificationCenter.subsFor r event).map NotificationCenter.Subscription.token →
       tok ∉ (NotificationCenter.notify r event sender).2) ∧
    ((NotificationCenter.notify removesLaterRegistry "E" 0).2 = [0, 2] ∧
     (NotificationCenter.notify removesEarlierRegistry "E" 0).2 = [0, 1, 2] ∧
     (NotificationCenter.notify addsDuringDispatchRegistry "E" 0).2 = [0, 1] ∧
     NotificationCenter.subsFor (NotificationCenter.notify addsDuringDispatchRegistry "E" 0).1 "E"
       = [⟨0, none, NotificationCenter.Effect.observeThen "E" 5 none⟩,
          ⟨1, none, NotificationCenter.Effect.nop⟩,
          ⟨5, none, NotificationCenter.Effect.nop⟩]) := by
  refine ⟨NotificationCenter.subsFor_observe, ?_, ?_, ?_, ?_, by decide, by decide, by decide,
    by decide⟩
  · intro obs o event
    simp [Notifier.notify, Notifier.observersFor_addObserver]
  · intro r event sender
    exact NotificationCenter.notifyGo_sublist event sender _ r
  · intro r event sender hnop
    exact NotificationCenter.notifyGo_nop event sender _ r (fun s hs => hs) hnop
  · intro r event sender tok htok hmem
    exact htok ((NotificationCenter.notifyGo_sublist event sender _ r).subset hmem)

/-- Witness for C2 at the spec's sender-filter scenario: two subscriptions
to event `Jump`, one filtered to sender 7 and one unfiltered; notifying with
sender 7 invokes both in registration order, notifying with sender 8 invokes
only the unfiltered one. -/
theorem notify_order_snapshot_reentrancy_witness :
    NotificationCenter.notify jumpRegistry "Jump" 7 = (jumpRegistry, [0, 1]) ∧
    NotificationCenter.notify jumpRegistry "Jump" 8 = (jumpRegistry, [1]) := by
  constructor
  · exact (notify_order_snapshot_reentrancy.2.2.2.1 jumpRegistry "Jump" 7
      (by decide)).trans (by decide)
  · exact (notify_order_snapshot_reentrancy.2.2.2.1 jumpRegistry "Jump" 8
      (by decide)).trans (by decide)

/-- Counterexample to C3 as stated: the effective 2-second timer scheduled
at real time 0, paused at real time 1 and resumed at real time 4 fires at
the tick at real time 5 — delayed by exactly the 3-second pause — and is
then removed, so nothing fires at real time 6; the claim's `fires at real
t=6` is false. -/
theorem timer_pause_scenario_cex :
    (Scheduler.timerPass timerScenarioResumed 5).2 = [0] ∧
    (Scheduler.timerPass timerScenarioResumed 5).1.timers = [] ∧
    (Scheduler.timerPass (Scheduler.timerPass timerScenarioResumed 5).1 6).2 = [] ∧
    Scheduler.isDue timerScenarioResumed (9 / 2) ⟨2, Scheduler.TimerType.effective, 0⟩
      = false := by
  norm_num [timerScenarioResumed, timerScenarioPaused, timerScenarioCreated,
    Scheduler.timerPass, Scheduler.isDue, Scheduler.resume, Scheduler.pause,
    Scheduler.createEffectiveTimer, Scheduler.effectiveElapsedTime, Scheduler.clockValue,
    Scheduler.realEndTime, List.insertionSort, List.orderedInsert]

/-- C3 (amended): the per-tick timer pass fires exactly the due timers, in
ascending end-time order on the common wall-clock scale (interleaved across
both timer types by end-time, not by type), and removes them, so each
one-shot callback fires once; two effective timers with durations d1 < d2
created at the same moment fire in that order within the pass; pausing
freezes the effective clock, so a pause of length p delays every effective
timer by exactly p — the spec's 2-second effective timer with `pause()` at
real t=1 s and `resume()` 3 s later fires at real t=5 s (2 s + 3 s pause),
not at t=2 s and not at t=6 s. -/
theorem timer_pass_order_and_pause_delay :
    (∀ (s : Scheduler.State) (t : ℚ), ∃ l : List Scheduler.CoreTimer,
       (Scheduler.timerPass s t).2 = l.map Scheduler.CoreTimer.tag ∧
       l.Perm (s.timers.filter (Scheduler.isDue s t)) ∧
       l.Pairwise (fun a b => Scheduler.realEndTime s a ≤ Scheduler.realEndTime s b) ∧
       (Scheduler.timerPass s t).1.timers =
         s.timers.filter (fun tm => !Scheduler.isDue s t tm)) ∧
    (∀ (s : Scheduler.State) (t : ℚ),
       (Scheduler.timerPass (Scheduler.timerPass s t).1 t).2 = []) ∧
    (∀ (pd t0 d1 d2 : ℚ) (tag1 tag2 : ℕ) (t : ℚ), d1 < d2 → t0 + d2 ≤ t →
       (Scheduler.timerPass
           (Scheduler.createEffectiveTimer
             (Scheduler.createEffectiveTimer ⟨[], pd, none⟩ t0 d1 tag1) t0 d2 tag2) t).2 =
         [tag1, tag2]) ∧
    (∀ (d : ℚ) (tag : ℕ) (t1 t2 t : ℚ),
       (Scheduler.resume (Scheduler.pause
           (Scheduler.createEffectiveTimer ⟨[], 0, none⟩ 0 d tag) t1) t2).timers =
         [⟨d, Scheduler.TimerType.effective, tag⟩] ∧
       (Scheduler.isDue (Scheduler.resume (Scheduler.pause
           (Scheduler.createEffectiveTimer ⟨[], 0, none⟩ 0 d tag) t1) t2) t
           ⟨d, Scheduler.TimerType.effective, tag⟩ = true ↔ d + (t2 - t1) ≤ t)) ∧
    (tickRun timerScenarioPaused [2, 3] = [(2, []), (3, [])] ∧
     tickRun timerScenarioResumed [5, 6] = [(5, [0]), (6, [])]) := by
  refine ⟨fun s t => ?_, fun s t => ?_, fun pd t0 d1 d2 tag1 tag2 t h12 hdue => ?_,
    fun d tag t1 t2 t => ?_, ?_, ?_⟩
  · haveI hTot : IsTotal Scheduler.CoreTimer
        (fun a b => Scheduler.realEndTime s a ≤ Scheduler.realEndTime s b) :=
      ⟨fun a b => le_total _ _⟩
    haveI hTrans : IsTrans Scheduler.CoreTimer
        (fun a b => Scheduler.realEndTime s a ≤ Scheduler.realEndTime s b) :=
      ⟨fun a b c hab hbc => le_trans hab hbc⟩
    refine ⟨List.insertionSort (fun a b => Scheduler.realEndTime s a ≤ Scheduler.realEndTime s b)
        (s.timers.filter (Scheduler.isDue s t)), rfl, ?_, ?_, rfl⟩
    · exact List.perm_insertionSort _ _
    · exact List.sorted_insertionSort _ _
  · have hsame : ∀ (l : List Scheduler.CoreTimer) (tm : Scheduler.CoreTimer),
        Scheduler.isDue ⟨l, s.pause_duration, s.pause_start⟩ t tm = Scheduler.isDue s t tm :=
      fun l tm => rfl
    simp only [Scheduler.timerPass, List.filter_filter, hsame]
    simp [List.insertionSort]
  · have ha : t0 - pd + d1 ≤ t - pd := by linarith
    have hb : t0 - pd + d2 ≤ t - pd := by linarith
    have hr : t0 - pd + d1 + pd ≤ t0 - pd + d2 + pd := by linarith
    simp [Scheduler.timerPass, Scheduler.createEffectiveTimer, Scheduler.effectiveElapsedTime,
      Scheduler.isDue, Scheduler.clockValue, Scheduler.realEndTime, List.insertionSort,
      List.orderedInsert, ha, hb, hr]
  · constructor
    · simp [Scheduler.resume, Scheduler.pause, Scheduler.createEffectiveTimer,
        Scheduler.effectiveElapsedTime]
    · simp only [Scheduler.resume, Scheduler.pause, Scheduler.createEffectiveTimer,
        Scheduler.effectiveElapsedTime, Scheduler.isDue, Scheduler.clockValue,
        decide_eq_true_eq]
      constructor <;> intro h <;> linarith
  · norm_num [tickRun, timerScenarioPaused, timerScenarioCreated,
      Scheduler.timerPass, Scheduler.isDue, Scheduler.pause,
      Scheduler.createEffectiveTimer, Scheduler.effectiveElapsedTime, Scheduler.clockValue,
      Scheduler.realEndTime, List.insertionSort, List.orderedInsert]
  · norm_num [tickRun, timerScenarioResumed, timerScenarioPaused, timerScenarioCreated,
      Scheduler.timerPass, Scheduler.isDue, Scheduler.resume, Scheduler.pause,
      Scheduler.createEffectiveTimer, Scheduler.effectiveElapsedTime, Scheduler.clockValue,
      Scheduler.realEndTime, List.insertionSort, List.orderedInsert]

/-- Witness for C3 (amended): two effective timers of 2 s and 3 s created at
the same moment both fire on a late tick, in ascending duration order. -/
theorem timer_pass_order_and_pause_delay_witness :
    (Scheduler.timerPass
        (Scheduler.createEffectiveTimer
          (Scheduler.createEffectiveTimer ⟨[], 0, none⟩ 0 2 1) 0 3 2) 10).2 = [1, 2] ∧
    (Scheduler.isDue (Scheduler.resume (Scheduler.pause
        (Scheduler.createEffectiveTimer ⟨[], 0, none⟩ 0 2 0) 1) 4) 5
        ⟨2, Scheduler.TimerType.effective, 0⟩ = true ↔ (2 : ℚ) + (4 - 1) ≤ 5) := by
  constructor
  · exact timer_pass_order_and_pause_delay.2.2.1 0 0 2 3 1 2 10 (by norm_num) (by norm_num)
  · exact (timer_pass_order_and_pause_delay.2.2.2.1 2 0 1 4 5).2

end Arcade
